import Mathlib

/-!
Shallow embedding of the Kalos sales-dashboard backend
(`apps/backend/src/index.ts`, the Socket.IO revision): the in-memory
`DataStore`, the `validateCreateTransactionRequest` validator, the
`POST /api/transactions` handler and its broadcast contract.

Modelling conventions:
* JavaScript numbers are embedded as exact rationals (`ℚ`); the non-finite
  specials `NaN`, `Infinity`, `-Infinity` are separate constructors of
  `JSNumber` so that the validator's `isFinite` / `<= 0` checks can be
  stated faithfully.
* ISO-8601 date strings are represented by their epoch-millisecond value
  (`Int`), which is exactly what every comparison in the source performs
  via `new Date(s).getTime()`.
* `uuidv4()` is abstracted by a fresh-counter supply (`nextId : Nat`) in
  the store state: each call yields a value distinct from every previously
  generated one, which is the property the source relies on.
-/

namespace Kalos

/-- The fixed currency whitelist of `validateCreateTransactionRequest`:
`["USD", "EUR", "GBP", "CAD", "AUD"]`. -/
def supportedCurrencies : List String := ["USD", "EUR", "GBP", "CAD", "AUD"]

/-- The `Transaction` record of `packages/shared/types.ts`, with `id`
abstracted to `Nat` (uuid supply) and `date` to epoch milliseconds. -/
structure Transaction where
  id : Nat
  date : Int
  customerName : String
  amount : ℚ
  currency : String
deriving Repr, DecidableEq

/-- The `Analytics` record of `packages/shared/types.ts`. -/
structure Analytics where
  totalRevenue : ℚ
  transactionCount : Nat
  currency : String
deriving Repr, DecidableEq

/-- The `ApiError` record of `packages/shared/types.ts`. -/
structure ApiError where
  error : String
  message : String
  statusCode : Nat
deriving Repr, DecidableEq

/-- The `CreateTransactionRequest` record of `packages/shared/types.ts`:
note it has no `date` field. -/
structure CreateTransactionRequest where
  customerName : String
  amount : ℚ
  currency : String
deriving Repr, DecidableEq

/-- A JavaScript number as the validator can observe it: an exact finite
value or one of the non-finite specials. -/
inductive JSNumber where
  | finite (q : ℚ)
  | nan
  | posInf
  | negInf
deriving Repr, DecidableEq

/-- `Number.isFinite` / global `isFinite` on an already-number value. -/
def JSNumber.isFinite : JSNumber → Bool
  | .finite _ => true
  | _ => false

/-- The test `amount <= 0` of the validator, with IEEE comparison
semantics: `NaN <= 0` is `false`, `-Infinity <= 0` is `true`. -/
def JSNumber.leZero : JSNumber → Bool
  | .finite q => decide (q ≤ 0)
  | .nan => false
  | .posInf => false
  | .negInf => true

/-- The rational value of a finite `JSNumber` (the specials map to 0; the
validator only reads this after its `isFinite` check has passed). -/
def JSNumber.toRat : JSNumber → ℚ
  | .finite q => q
  | _ => 0

/-- A JSON value as produced by `await c.req.json()`: the universe of
payloads the validator can receive. -/
inductive JSValue where
  | jsNull
  | jsBool (b : Bool)
  | jsNum (n : JSNumber)
  | jsStr (s : String)
  | jsArr (elems : List JSValue)
  | jsObj (fields : List (String × JSValue))

/-- JavaScript truthiness (the `!data` test): `null`, `false`, `±0`,
`NaN` and `""` are falsy, everything else truthy. -/
def JSValue.truthy : JSValue → Bool
  | .jsNull => false
  | .jsBool b => b
  | .jsNum (.finite q) => decide (q ≠ 0)
  | .jsNum .nan => false
  | .jsNum _ => true
  | .jsStr s => decide (s ≠ "")
  | .jsArr _ => true
  | .jsObj _ => true

/-- The `typeof` operator restricted to JSON values: `typeof null` and
`typeof []` are both `"object"`. -/
def JSValue.typeOf : JSValue → String
  | .jsNull => "object"
  | .jsBool _ => "boolean"
  | .jsNum _ => "number"
  | .jsStr _ => "string"
  | .jsArr _ => "object"
  | .jsObj _ => "object"

/-- Property access `value.key` (the destructuring in the validator):
`none` models `undefined`.  For an object, `JSON.parse` keeps the last of
duplicate keys, hence the reverse lookup; a JSON array has no string-named
properties relevant here. -/
def JSValue.getProp (v : JSValue) (key : String) : Option JSValue :=
  match v with
  | .jsObj fields => ((fields.reverse).find? (fun kv => kv.1 == key)).map (fun kv => kv.2)
  | _ => none

/-- The character set stripped by `String.prototype.trim` (ECMAScript
WhiteSpace and LineTerminator code points). -/
def isJSWhitespace (c : Char) : Bool :=
  c == ' ' || c == '\t' || c == '\n' || c == '\r' || c == '\x0b' || c == '\x0c' ||
  c == '\u00A0' || c == '\uFEFF' || c == '\u2028' || c == '\u2029'

/-- `String.prototype.trim`: drop leading and trailing whitespace. -/
def jsTrim (s : String) : String :=
  String.mk (((s.data.dropWhile isJSWhitespace).reverse.dropWhile isJSWhitespace).reverse)

/-- `Math.round`: round half toward positive infinity (`Rat.floor` is
used rather than `⌊⌋` so that concrete instances evaluate in the kernel;
`jsRound_eq_floor` below identifies the two). -/
def jsRound (q : ℚ) : Int := (q + 1/2).floor

/-- `Math.round(amount * 100) / 100`: the validator's rounding of an
amount to 2 decimal places. -/
def roundToCents (q : ℚ) : ℚ := (jsRound (q * 100) : ℚ) / 100

/-- `validateCreateTransactionRequest` of `index.ts`: rejects a falsy or
non-object body; requires `customerName` a string that is non-empty after
trimming, `amount` a finite number `> 0`, `currency` a string in the
whitelist; on success returns the trimmed name, the amount rounded to
cents and the currency. -/
def validateCreateTransactionRequest (data : JSValue) :
    Option CreateTransactionRequest :=
  if !data.truthy || data.typeOf ≠ "object" then none else
  match data.getProp "customerName", data.getProp "amount", data.getProp "currency" with
  | some (.jsStr customerName), some (.jsNum amount), some (.jsStr currency) =>
    if (jsTrim customerName).length = 0 then none
    else if amount.leZero || !amount.isFinite then none
    else if !(supportedCurrencies.contains currency) then none
    else some { customerName := jsTrim customerName
                amount := roundToCents amount.toRat
                currency := currency }
  | _, _, _ => none

/-- `createErrorResponse` of `index.ts`. -/
def createErrorResponse (error message : String) (statusCode : Nat) : ApiError :=
  { error := error, message := message, statusCode := statusCode }

/-- The argument of `DataStore.createTransaction`
(`Omit<Transaction, "id">`): `date := none` models an absent (or empty,
hence falsy) date string, for which the store substitutes the current
time. -/
structure TransactionData where
  date : Option Int
  customerName : String
  amount : ℚ
  currency : String
deriving Repr, DecidableEq

/-- The sort comparator `(a, b) => new Date(b.date).getTime() - new
Date(a.date).getTime()`: `a` may precede `b` exactly when the comparator
is `≤ 0`, i.e. `b.date ≤ a.date` (newest first). -/
def dateDescLe (a b : Transaction) : Bool := decide (b.date ≤ a.date)

/-- `Map.prototype.set`: replace the value of an existing key, otherwise
append the binding in insertion order. -/
def mapSet (m : List (Nat × Transaction)) (k : Nat) (v : Transaction) :
    List (Nat × Transaction) :=
  if m.any (fun kv => kv.1 == k) then
    m.map (fun kv => if kv.1 == k then (k, v) else kv)
  else m ++ [(k, v)]

/-- The state of the in-memory `DataStore`: the transaction array, the
id-keyed `Map` (as an insertion-ordered association list), and the fresh
supply abstracting `uuidv4`. -/
structure DataStore where
  transactions : List Transaction
  transactionMap : List (Nat × Transaction)
  nextId : Nat
deriving Repr, DecidableEq

/-- `DataStore.createTransaction`: draw a fresh id, default the date to
`now` when absent, push, re-sort by date descending (stable, as
`Array.prototype.sort` is), record in the map; returns the created record
together with the updated store. -/
def DataStore.createTransaction (s : DataStore) (data : TransactionData)
    (now : Int) : Transaction × DataStore :=
  let transaction : Transaction :=
    { id := s.nextId
      date := data.date.getD now
      customerName := data.customerName
      amount := data.amount
      currency := data.currency }
  (transaction,
    { transactions := (s.transactions ++ [transaction]).mergeSort dateDescLe
      transactionMap := mapSet s.transactionMap transaction.id transaction
      nextId := s.nextId + 1 })

/-- `DataStore.getAllTransactions` (value level): `[...this.transactions]`
returns the current contents; the copy aspect is modelled separately at
the reference level below. -/
def DataStore.getAllTransactions (s : DataStore) : List Transaction :=
  s.transactions

/-- `DataStore.getTransactionById`: `Map.prototype.get`. -/
def DataStore.getTransactionById (s : DataStore) (id : Nat) :
    Option Transaction :=
  ((s.transactionMap).find? (fun kv => kv.1 == id)).map (fun kv => kv.2)

/-- `DataStore.calculateAnalytics`: left fold of `+ amount` over the
array (the `reduce`), the array length, and the fixed `"USD"` label. -/
def DataStore.calculateAnalytics (s : DataStore) : Analytics :=
  { totalRevenue := s.transactions.foldl (fun sum t => sum + t.amount) 0
    transactionCount := s.transactions.length
    currency := "USD" }

/-- The store before seeding. -/
def emptyStore : DataStore :=
  { transactions := [], transactionMap := [], nextId := 0 }

/-- The three sample records of `seedData`, dates as epoch milliseconds
(`2024-01-15T10:30:00Z`, `2024-01-15T14:20:00Z`, `2024-01-16T09:15:00Z`). -/
def seedTransactions : List TransactionData :=
  [ { date := some 1705314600000, customerName := "John Smith"
      amount := 299.99, currency := "USD" }
  , { date := some 1705328400000, customerName := "Sarah Johnson"
      amount := 149.5, currency := "USD" }
  , { date := some 1705396500000, customerName := "Mike Davis"
      amount := 499.99, currency := "USD" } ]

/-- `seedData` run by the constructor: each sample is inserted through
`createTransaction` (their dates are present, so `now` is irrelevant and
taken as 0). -/
def seededStore : DataStore :=
  seedTransactions.foldl (fun s d => (s.createTransaction d 0).2) emptyStore

/-- A sequence of `createTransaction` calls applied to a store, each with
its own `now` timestamp: the reachable states of the process are
`applyCreates seededStore inputs`. -/
def applyCreates (s : DataStore) (inputs : List (TransactionData × Int)) :
    DataStore :=
  inputs.foldl (fun s p => (s.createTransaction p.1 p.2).2) s

/-- The two events `io.emit` sends on a successful creation. -/
inductive BroadcastEvent where
  | transactionAdded (t : Transaction)
  | analyticsUpdated (a : Analytics)
deriving Repr, DecidableEq

/-- `io.emit`: fan one event out to every currently connected client. -/
def broadcast (clients : List String) (e : BroadcastEvent) :
    List (String × BroadcastEvent) :=
  clients.map (fun c => (c, e))

/-- The observable outcome of one `POST /api/transactions` request: HTTP
status, response body (created record or error), the store afterwards,
and the events emitted in order. -/
structure PostTransactionsResponse where
  status : Nat
  created : Option Transaction
  errorBody : Option ApiError
  store : DataStore
  events : List BroadcastEvent
deriving Repr, DecidableEq

/-- The `POST /api/transactions` handler of `index.ts`: validate; on
failure answer 400 with `VALIDATION_ERROR` and touch nothing; on success
create the transaction (the validated data carries no date, so the store
dates it `now`), broadcast it, recompute analytics, broadcast those, and
answer 201 with the created record.  The validated
`CreateTransactionRequest` is passed to `createTransaction` as an
`Omit<Transaction, "id">` with `date` absent. -/
def requestToData (r : CreateTransactionRequest) : TransactionData :=
  { date := none, customerName := r.customerName
    amount := r.amount, currency := r.currency }

/-- See `requestToData`: the handler body. -/
def postTransactions (s : DataStore) (body : JSValue) (now : Int) :
    PostTransactionsResponse :=
  match validateCreateTransactionRequest body with
  | none =>
    { status := 400
      created := none
      errorBody := some (createErrorResponse "VALIDATION_ERROR"
        "Invalid transaction data. Required: customerName (string), amount (positive number), currency (USD/EUR/GBP/CAD/AUD)" 400)
      store := s
      events := [] }
  | some validatedData =>
    let r := s.createTransaction (requestToData validatedData) now
    { status := 201
      created := some r.1
      errorBody := none
      store := r.2
      events := [ .transactionAdded r.1
                , .analyticsUpdated (r.2.calculateAnalytics) ] }

/-- The per-client deliveries of a response's events: each event is
`io.emit`ted to all currently connected clients, in event order. -/
def PostTransactionsResponse.deliveries (r : PostTransactionsResponse)
    (clients : List String) : List (String × BroadcastEvent) :=
  (r.events.map (broadcast clients)).flatten

/-!
Reference-level model of the transaction array, for the aliasing
behaviour of `getAllTransactions` (`return [...this.transactions]`): a
heap maps references (indices) to array contents; the store object holds
one reference to its private array.
-/

/-- A heap of `Transaction` arrays; a reference is an index into it. -/
structure ArrayHeap where
  cells : List (List Transaction)
deriving Repr, DecidableEq

/-- Dereference (out-of-range reads give the empty array; all theorems
carry in-range hypotheses). -/
def ArrayHeap.read (h : ArrayHeap) (r : Nat) : List Transaction :=
  h.cells.getD r []

/-- In-place update of the array behind a reference. -/
def ArrayHeap.write (h : ArrayHeap) (r : Nat) (v : List Transaction) :
    ArrayHeap :=
  { cells := h.cells.set r v }

/-- Allocate a fresh array cell; the returned reference is new. -/
def ArrayHeap.alloc (h : ArrayHeap) (v : List Transaction) :
    Nat × ArrayHeap :=
  (h.cells.length, { cells := h.cells ++ [v] })

/-- `getAllTransactions` at the reference level: `[...this.transactions]`
allocates a fresh array holding a copy of the current contents and
returns a reference to it. -/
def getAllTransactionsRef (txRef : Nat) (h : ArrayHeap) : Nat × ArrayHeap :=
  h.alloc (h.read txRef)

/-- `createTransaction`'s effect on the transaction array at the
reference level: `push` then in-place `sort` both mutate the array behind
the store's own reference. -/
def createTransactionRef (txRef : Nat) (h : ArrayHeap) (t : Transaction) :
    ArrayHeap :=
  h.write txRef ((h.read txRef ++ [t]).mergeSort dateDescLe)

/-- Whether a JSON value is an object (not an array, not a primitive). -/
def JSValue.isObj : JSValue → Bool
  | .jsObj _ => true
  | _ => false

/-- Modelled from the spec (ValidationLayer contract, section 4.2): the
payload must be an object whose `customerName` is a string non-empty
after trimming, whose `amount` is a finite number strictly greater than
0, and whose `currency` is a string in the fixed set; on success the
normalized request carries the trimmed name and the amount rounded to
cents, and any violation yields failure with no partial result.  Stated
as a function to be compared with `validateCreateTransactionRequest`. -/
def specValidateNormalize (data : JSValue) : Option CreateTransactionRequest :=
  if data.isObj then
    match data.getProp "customerName", data.getProp "amount", data.getProp "currency" with
    | some (.jsStr name), some (.jsNum (.finite q)), some (.jsStr cur) =>
      if jsTrim name ≠ "" ∧ 0 < q ∧ cur ∈ supportedCurrencies then
        some { customerName := jsTrim name, amount := roundToCents q, currency := cur }
      else none
    | _, _, _ => none
  else none

/-- The store invariant maintained by every operation: all stored ids are
below the fresh supply, ids are pairwise distinct, and the `Map` holds
exactly the array's transactions keyed by their ids. -/
def StoreWF (s : DataStore) : Prop :=
  (∀ t ∈ s.transactions, t.id < s.nextId) ∧
  (s.transactions.map (fun t => t.id)).Nodup ∧
  s.transactionMap.Perm (s.transactions.map (fun t => (t.id, t)))

/-- The first seeded record ("John Smith"), after id assignment. -/
def seedTx0 : Transaction := ⟨0, 1705314600000, "John Smith", 299.99, "USD"⟩

/-- The second seeded record ("Sarah Johnson"), after id assignment. -/
def seedTx1 : Transaction := ⟨1, 1705328400000, "Sarah Johnson", 149.5, "USD"⟩

/-- The third seeded record ("Mike Davis"), after id assignment. -/
def seedTx2 : Transaction := ⟨2, 1705396500000, "Mike Davis", 499.99, "USD"⟩

/-!
Helper lemmas.
-/

theorem jsRound_eq_floor (q : ℚ) : jsRound q = ⌊q + 1/2⌋ :=
  (Rat.floor_def' _).trans Rat.floor_def.symm

theorem jsRound_eq_of (q : ℚ) (n : ℤ) (h1 : (n : ℚ) ≤ q + 1/2)
    (h2 : q + 1/2 < n + 1) : jsRound q = n := by
  rw [jsRound_eq_floor]
  exact Int.floor_eq_iff.mpr ⟨h1, h2⟩

theorem roundToCents_19995 : roundToCents (19.995 : ℚ) = 20 := by
  rw [roundToCents,
    jsRound_eq_of ((19.995 : ℚ) * 100) 2000 (by norm_num) (by norm_num)]
  norm_num

theorem roundToCents_19994 : roundToCents (19.994 : ℚ) = 19.99 := by
  rw [roundToCents,
    jsRound_eq_of ((19.994 : ℚ) * 100) 1999 (by norm_num) (by norm_num)]
  norm_num

theorem seededStore_eq :
    seededStore =
      { transactions := [seedTx2, seedTx1, seedTx0]
        transactionMap := [(0, seedTx0), (1, seedTx1), (2, seedTx2)]
        nextId := 3 } := by
  simp [seededStore, seedTransactions, emptyStore, DataStore.createTransaction,
    mapSet, List.mergeSort, dateDescLe, seedTx0, seedTx1, seedTx2]

theorem storeWF_seeded : StoreWF seededStore := by
  refine ⟨?_, ?_, ?_⟩
  · rw [seededStore_eq]; decide
  · rw [seededStore_eq]; decide
  · rw [seededStore_eq]
    show List.Perm [(0, seedTx0), (1, seedTx1), (2, seedTx2)]
      [(2, seedTx2), (1, seedTx1), (0, seedTx0)]
    exact List.reverse_perm [(2, seedTx2), (1, seedTx1), (0, seedTx0)]

theorem createTransaction_fst (s : DataStore) (d : TransactionData) (now : Int) :
    (s.createTransaction d now).1 =
      ⟨s.nextId, d.date.getD now, d.customerName, d.amount, d.currency⟩ := rfl

theorem createTransaction_snd_transactions (s : DataStore)
    (d : TransactionData) (now : Int) :
    (s.createTransaction d now).2.transactions =
      (s.transactions ++ [(s.createTransaction d now).1]).mergeSort dateDescLe := rfl

theorem createTransaction_snd_map (s : DataStore) (d : TransactionData)
    (now : Int) :
    (s.createTransaction d now).2.transactionMap =
      mapSet s.transactionMap s.nextId (s.createTransaction d now).1 := rfl

theorem createTransaction_snd_nextId (s : DataStore) (d : TransactionData)
    (now : Int) : (s.createTransaction d now).2.nextId = s.nextId + 1 := rfl

theorem createTransaction_perm (s : DataStore) (d : TransactionData)
    (now : Int) :
    ((s.createTransaction d now).2.transactions).Perm
      (s.transactions ++ [(s.createTransaction d now).1]) :=
  List.mergeSort_perm _ _

theorem dateDescLe_trans (a b c : Transaction) :
    dateDescLe a b → dateDescLe b c → dateDescLe a c := by
  simp only [dateDescLe, decide_eq_true_eq]
  exact fun h1 h2 => le_trans h2 h1

theorem dateDescLe_total (a b : Transaction) :
    dateDescLe a b || dateDescLe b a := by
  simp only [dateDescLe, Bool.or_eq_true, decide_eq_true_eq]
  exact le_total b.date a.date

theorem createTransaction_sorted (s : DataStore) (d : TransactionData)
    (now : Int) :
    ((s.createTransaction d now).2.transactions).Pairwise
      (fun a b => b.date ≤ a.date) := by
  rw [createTransaction_snd_transactions]
  exact (List.sorted_mergeSort dateDescLe_trans dateDescLe_total _).imp
    (fun h => by simpa [dateDescLe] using h)

theorem foldl_add_amount (l : List Transaction) (a : ℚ) :
    l.foldl (fun sum t => sum + t.amount) a =
      a + (l.map (fun t => t.amount)).sum := by
  induction l generalizing a with
  | nil => simp
  | cons t l ih => simp [ih, add_assoc]

theorem totalRevenue_eq_sum (s : DataStore) :
    s.calculateAnalytics.totalRevenue =
      (s.transactions.map (fun t => t.amount)).sum := by
  simp [DataStore.calculateAnalytics, foldl_add_amount]

theorem length_eq_zero_iff (s : String) : s.length = 0 ↔ s = "" := by
  cases s with
  | mk data => simp [String.length, String.ext_iff]

theorem validate_eq_spec (data : JSValue) :
    validateCreateTransactionRequest data = specValidateNormalize data := by
  cases data with
  | jsNull => rfl
  | jsBool b => cases b <;> rfl
  | jsNum n =>
    cases n with
    | finite q =>
      simp [validateCreateTransactionRequest, specValidateNormalize,
        JSValue.truthy, JSValue.typeOf, JSValue.isObj]
    | nan => rfl
    | posInf => rfl
    | negInf => rfl
  | jsStr s =>
    simp [validateCreateTransactionRequest, specValidateNormalize,
      JSValue.truthy, JSValue.typeOf, JSValue.isObj]
  | jsArr elems => rfl
  | jsObj fields =>
    simp only [validateCreateTransactionRequest, specValidateNormalize,
      JSValue.truthy, JSValue.typeOf, JSValue.isObj, Bool.not_true,
      Bool.false_or, ne_eq, ite_not]
    rw [if_neg (by simp), if_pos trivial]
    generalize (JSValue.jsObj fields).getProp "customerName" = c1
    generalize (JSValue.jsObj fields).getProp "amount" = c2
    generalize (JSValue.jsObj fields).getProp "currency" = c3
    rcases c1 with _ | (_ | b1 | n1 | s1 | a1 | o1) <;>
      rcases c2 with _ | (_ | b2 | (q | _ | _ | _) | s2 | a2 | o2) <;>
        rcases c3 with _ | (_ | b3 | n3 | s3 | a3 | o3) <;>
          first
          | rfl
          | (exact ite_self none)
          | (by_cases h1 : jsTrim s1 = "" <;>
              by_cases h2 : q ≤ 0 <;>
                by_cases h3 : s3 ∈ supportedCurrencies <;>
                  simp [h1, h2, h3, length_eq_zero_iff, JSNumber.leZero,
                    JSNumber.isFinite, JSNumber.toRat, not_le, List.elem_iff,
                    lt_iff_not_le])

theorem storeWF_create (s : DataStore) (d : TransactionData) (now : Int)
    (h : StoreWF s) : StoreWF (s.createTransaction d now).2 := by
  obtain ⟨hlt, hnodup, hperm⟩ := h
  have hperm2 := createTransaction_perm s d now
  have htid : (s.createTransaction d now).1.id = s.nextId := rfl
  refine ⟨?_, ?_, ?_⟩
  · intro u hu
    rw [createTransaction_snd_nextId]
    rcases List.mem_append.mp (hperm2.mem_iff.mp hu) with h1 | h2
    · exact Nat.lt_succ_of_lt (hlt u h1)
    · rw [List.mem_singleton.mp h2, htid]
      exact Nat.lt_succ_self _
  · rw [List.Perm.nodup_iff (hperm2.map (fun t => t.id))]
    rw [List.map_append, List.nodup_append]
    refine ⟨hnodup, by simp, ?_⟩
    intro x hx hx'
    rcases List.mem_map.mp hx with ⟨u, hu, rfl⟩
    simp only [List.map_cons, List.map_nil, List.mem_singleton, htid] at hx'
    exact absurd hx' (Nat.ne_of_lt (hlt u hu))
  · rw [createTransaction_snd_map]
    have hnokey : s.transactionMap.any (fun kv => kv.1 == s.nextId) = false := by
      rw [List.any_eq_false]
      intro kv hkv
      rcases List.mem_map.mp (hperm.mem_iff.mp hkv) with ⟨u, hu, rfl⟩
      simp only [beq_iff_eq]
      exact Nat.ne_of_lt (hlt u hu)
    rw [mapSet, if_neg (by rw [hnokey]; simp)]
    refine (hperm.append_right _).trans ?_
    have heq : s.transactions.map (fun t => (t.id, t)) ++
        [(s.nextId, (s.createTransaction d now).1)] =
        (s.transactions ++ [(s.createTransaction d now).1]).map
          (fun t => (t.id, t)) := by
      simp [htid]
    rw [heq]
    exact (hperm2.map _).symm

theorem applyCreates_cons (s : DataStore) (p : TransactionData × Int)
    (rest : List (TransactionData × Int)) :
    applyCreates s (p :: rest) =
      applyCreates (s.createTransaction p.1 p.2).2 rest := rfl

theorem storeWF_applyCreates (s : DataStore)
    (inputs : List (TransactionData × Int)) (h : StoreWF s) :
    StoreWF (applyCreates s inputs) := by
  induction inputs generalizing s with
  | nil => exact h
  | cons p rest ih =>
    rw [applyCreates_cons]
    exact ih _ (storeWF_create s p.1 p.2 h)

theorem applyCreates_sorted (s : DataStore)
    (inputs : List (TransactionData × Int))
    (h : s.transactions.Pairwise (fun a b => b.date ≤ a.date)) :
    (applyCreates s inputs).transactions.Pairwise
      (fun a b => b.date ≤ a.date) := by
  induction inputs generalizing s with
  | nil => exact h
  | cons p rest ih =>
    rw [applyCreates_cons]
    exact ih _ (createTransaction_sorted s p.1 p.2)

theorem getTransactionById_mem (s : DataStore) (h : StoreWF s)
    (t : Transaction) (ht : t ∈ s.transactions) :
    s.getTransactionById t.id = some t := by
  obtain ⟨hlt, hnodup, hperm⟩ := h
  unfold DataStore.getTransactionById
  have hmem : (t.id, t) ∈ s.transactionMap :=
    hperm.mem_iff.mpr (List.mem_map.mpr ⟨t, ht, rfl⟩)
  cases hfind : s.transactionMap.find? (fun kv => kv.1 == t.id) with
  | none =>
    rw [List.find?_eq_none] at hfind
    exact absurd (by simp : ((t.id, t).1 == t.id) = true)
      (by simpa using hfind _ hmem)
  | some kv =>
    have hkv_mem : kv ∈ s.transactionMap := List.mem_of_find?_eq_some hfind
    have hkv_p := List.find?_some hfind
    rcases List.mem_map.mp (hperm.mem_iff.mp hkv_mem) with ⟨u, hu, rfl⟩
    have : u = t := List.inj_on_of_nodup_map hnodup hu ht (by simpa using hkv_p)
    simp [this]

/-- C1: for every valid creation payload, the amount stored and returned is
the input amount rounded to 2 decimal places using standard (half-up)
rounding: the validated request carries `roundToCents` of the input amount,
`createTransaction` returns and stores exactly that amount, and in
particular 19.995 normalizes to 20.00 while 19.994 normalizes to 19.99. -/
theorem amount_normalized_round_half_up (data : JSValue)
    (req : CreateTransactionRequest) (q : ℚ) (s : DataStore) (now : Int)
    (hv : validateCreateTransactionRequest data = some req)
    (hq : data.getProp "amount" = some (.jsNum (.finite q))) :
    req.amount = roundToCents q ∧
    (s.createTransaction (requestToData req) now).1.amount = req.amount ∧
    (s.createTransaction (requestToData req) now).1 ∈
      (s.createTransaction (requestToData req) now).2.transactions ∧
    roundToCents (19.995 : ℚ) = 20 ∧ roundToCents (19.994 : ℚ) = 19.99 := by
  refine ⟨?_, rfl, ?_, roundToCents_19995, roundToCents_19994⟩
  · rw [validate_eq_spec] at hv
    unfold specValidateNormalize at hv
    by_cases hobj : data.isObj
    · rw [if_pos hobj, hq] at hv
      rcases hn : data.getProp "customerName" with _ | (_ | _ | _ | name | _ | _) <;>
        rw [hn] at hv <;>
        rcases hc : data.getProp "currency" with _ | (_ | _ | _ | cur | _ | _) <;>
          rw [hc] at hv <;>
          simp only [Option.ite_none_right_eq_some, Option.some.injEq,
            reduceCtorEq] at hv
      obtain ⟨-, rfl⟩ := hv
      rfl
    · rw [if_neg hobj] at hv
      cases hv
  · exact (createTransaction_perm s (requestToData req) now).mem_iff.mpr
      (List.mem_append.mpr (Or.inr (List.mem_singleton.mpr rfl)))

/-- C1 witness payload. -/
def c1Body : JSValue :=
  .jsObj [("customerName", .jsStr "Ada"), ("amount", .jsNum (.finite 7)),
          ("currency", .jsStr "USD")]

/-- C1 witness. -/
theorem amount_normalized_round_half_up_witness :
    validateCreateTransactionRequest c1Body =
      some ⟨"Ada", roundToCents 7, "USD"⟩ ∧
    (⟨"Ada", roundToCents 7, "USD"⟩ : CreateTransactionRequest).amount =
      roundToCents 7 ∧
    roundToCents (19.995 : ℚ) = 20 ∧ roundToCents (19.994 : ℚ) = 19.99 := by
  have h := amount_normalized_round_half_up c1Body
    ⟨"Ada", roundToCents 7, "USD"⟩ 7 seededStore 0 rfl rfl
  exact ⟨rfl, h.1, h.2.2.2.1, h.2.2.2.2⟩

/-- C2: for every store state and every pre-validated creation input,
creating a transaction and recomputing analytics yields a transaction
count exactly one greater than before and a total revenue exactly the
previous total plus the created transaction's amount. -/
theorem analytics_increment (s : DataStore) (d : TransactionData)
    (now : Int) :
    ((s.createTransaction d now).2.calculateAnalytics).transactionCount =
      s.calculateAnalytics.transactionCount + 1 ∧
    ((s.createTransaction d now).2.calculateAnalytics).totalRevenue =
      s.calculateAnalytics.totalRevenue +
        (s.createTransaction d now).1.amount := by
  constructor
  · show (s.createTransaction d now).2.transactions.length =
      s.transactions.length + 1
    rw [(createTransaction_perm s d now).length_eq]
    simp
  · rw [totalRevenue_eq_sum, totalRevenue_eq_sum,
      ((createTransaction_perm s d now).map (fun t => t.amount)).sum_eq]
    simp

/-- C3: for every invalid POST /api/transactions payload (one rejected by
the validation contract), the handler answers 400 with the
`VALIDATION_ERROR` body, leaves the store unchanged, and emits no
broadcast event. -/
theorem invalid_post_rejected (s : DataStore) (body : JSValue) (now : Int)
    (h : specValidateNormalize body = none) :
    (postTransactions s body now).status = 400 ∧
    (postTransactions s body now).errorBody =
      some (createErrorResponse "VALIDATION_ERROR"
        "Invalid transaction data. Required: customerName (string), amount (positive number), currency (USD/EUR/GBP/CAD/AUD)"
        400) ∧
    (postTransactions s body now).store = s ∧
    (postTransactions s body now).events = [] := by
  have hv : validateCreateTransactionRequest body = none :=
    (validate_eq_spec body).trans h
  refine ⟨?_, ?_, ?_, ?_⟩ <;> simp [postTransactions, hv]

/-- C3 witness payload: empty customer name. -/
def c3Body : JSValue :=
  .jsObj [("customerName", .jsStr ""), ("amount", .jsNum (.finite 10)),
          ("currency", .jsStr "USD")]

/-- C3 witness. -/
theorem invalid_post_rejected_witness :
    specValidateNormalize c3Body = none ∧
    (postTransactions seededStore c3Body 0).status = 400 ∧
    (postTransactions seededStore c3Body 0).store = seededStore ∧
    (postTransactions seededStore c3Body 0).events = [] := by
  have h := invalid_post_rejected seededStore c3Body 0 rfl
  exact ⟨rfl, h.1, h.2.2.1, h.2.2.2⟩

/-- C4: the validator succeeds exactly on payloads that are objects with a
customerName string non-empty after trimming, a finite amount strictly
greater than 0, and a currency in the fixed whitelist, returning the
trimmed name and the amount rounded to cents, and fails with no partial
result otherwise: it coincides with the spec-level normalizer on every
input. -/
theorem validator_accepts_iff_spec (data : JSValue) :
    validateCreateTransactionRequest data = specValidateNormalize data :=
  validate_eq_spec data

/-- C5: after any sequence of creations starting from the seeded initial
state, `getAllTransactions` returns the store's full collection ordered by
date descending (newest first). -/
theorem list_sorted_date_desc (inputs : List (TransactionData × Int)) :
    (applyCreates seededStore inputs).getAllTransactions =
      (applyCreates seededStore inputs).transactions ∧
    ((applyCreates seededStore inputs).getAllTransactions).Pairwise
      (fun a b => b.date ≤ a.date) := by
  refine ⟨rfl, ?_⟩
  show (applyCreates seededStore inputs).transactions.Pairwise _
  apply applyCreates_sorted
  rw [seededStore_eq]
  decide

/-- C6: on every successful creation the handler emits exactly two events,
`server:transaction-added` with the created record followed by
`server:analytics-updated` with the analytics recomputed after the
creation, and each currently connected client receives both. -/
theorem broadcast_two_events_on_create (s : DataStore) (body : JSValue)
    (now : Int) (clients : List String) (c : String)
    (req : CreateTransactionRequest)
    (hv : validateCreateTransactionRequest body = some req)
    (hc : c ∈ clients) :
    (postTransactions s body now).events =
      [ BroadcastEvent.transactionAdded
          (s.createTransaction (requestToData req) now).1
      , BroadcastEvent.analyticsUpdated
          ((s.createTransaction (requestToData req) now).2.calculateAnalytics) ] ∧
    (c, BroadcastEvent.transactionAdded
        (s.createTransaction (requestToData req) now).1) ∈
      (postTransactions s body now).deliveries clients ∧
    (c, BroadcastEvent.analyticsUpdated
        ((s.createTransaction (requestToData req) now).2.calculateAnalytics)) ∈
      (postTransactions s body now).deliveries clients := by
  have hev : (postTransactions s body now).events =
      [ BroadcastEvent.transactionAdded
          (s.createTransaction (requestToData req) now).1
      , BroadcastEvent.analyticsUpdated
          ((s.createTransaction (requestToData req) now).2.calculateAnalytics) ] := by
    simp [postTransactions, hv]
  refine ⟨hev, ?_, ?_⟩ <;>
    rw [PostTransactionsResponse.deliveries, hev] <;>
      simp [broadcast] <;>
        exact hc

/-- C6 witness payload. -/
def c6Body : JSValue :=
  .jsObj [("customerName", .jsStr "Grace"), ("amount", .jsNum (.finite 12)),
          ("currency", .jsStr "GBP")]

/-- C6 witness. -/
theorem broadcast_two_events_on_create_witness :
    validateCreateTransactionRequest c6Body =
      some ⟨"Grace", roundToCents 12, "GBP"⟩ ∧
    "alice" ∈ ["alice", "bob"] ∧
    (postTransactions seededStore c6Body 99).events =
      [ BroadcastEvent.transactionAdded
          (seededStore.createTransaction
            (requestToData ⟨"Grace", roundToCents 12, "GBP"⟩) 99).1
      , BroadcastEvent.analyticsUpdated
          ((seededStore.createTransaction
            (requestToData ⟨"Grace", roundToCents 12, "GBP"⟩) 99).2.calculateAnalytics) ] ∧
    ("alice", BroadcastEvent.transactionAdded
        (seededStore.createTransaction
          (requestToData ⟨"Grace", roundToCents 12, "GBP"⟩) 99).1) ∈
      (postTransactions seededStore c6Body 99).deliveries ["alice", "bob"] := by
  have h := broadcast_two_events_on_create seededStore c6Body 99
    ["alice", "bob"] "alice" ⟨"Grace", roundToCents 12, "GBP"⟩ rfl
    (by decide)
  exact ⟨rfl, by decide, h.1, h.2.1⟩

/-- C7: for every creation input and every store state whose ids are below
the fresh supply (the uuid-freshness abstraction), the transaction
returned by `createTransaction` carries an id distinct from the ids of all
transactions already stored. -/
theorem created_id_fresh (s : DataStore) (d : TransactionData) (now : Int)
    (h : ∀ t ∈ s.transactions, t.id < s.nextId) :
    (s.createTransaction d now).1.id ∉
      s.transactions.map (fun t => t.id) := by
  intro hmem
  rcases List.mem_map.mp hmem with ⟨u, hu, hid⟩
  have hlt := h u hu
  rw [hid] at hlt
  exact absurd hlt (lt_irrefl _)

/-- C7 witness data. -/
def c7Data : TransactionData :=
  { date := none, customerName := "Walt", amount := 3, currency := "CAD" }

/-- C7 witness. -/
theorem created_id_fresh_witness :
    (∀ t ∈ seededStore.transactions, t.id < seededStore.nextId) ∧
    (seededStore.createTransaction c7Data 0).1.id ∉
      seededStore.transactions.map (fun t => t.id) := by
  refine ⟨?_, created_id_fresh seededStore c7Data 0 ?_⟩ <;>
    (rw [seededStore_eq]; decide)

/-- C8: every transaction created through POST /api/transactions has its
date set to the server's current time: the validator output has no date
field, so the store's date-defaulting branch always fires, even when the
request body supplies a date. -/
theorem api_created_date_is_now (s : DataStore) (body : JSValue) (now : Int)
    (t : Transaction) (h : (postTransactions s body now).created = some t) :
    t.date = now := by
  unfold postTransactions at h
  cases hv : validateCreateTransactionRequest body with
  | none => rw [hv] at h; cases h
  | some req =>
    rw [hv] at h
    simp only [Option.some.injEq] at h
    rw [← h]
    rfl

/-- C8 witness payload: carries a `date` field, which must be ignored. -/
def c8Body : JSValue :=
  .jsObj [("customerName", .jsStr "Eve"), ("amount", .jsNum (.finite 5)),
          ("currency", .jsStr "EUR"), ("date", .jsStr "1999-01-01T00:00:00Z")]

/-- C8 witness. -/
theorem api_created_date_is_now_witness :
    (postTransactions seededStore c8Body 42).created =
      some ⟨3, 42, "Eve", roundToCents 5, "EUR"⟩ ∧
    (⟨3, 42, "Eve", roundToCents 5, "EUR"⟩ : Transaction).date = 42 :=
  ⟨rfl, api_created_date_is_now seededStore c8Body 42 _ rfl⟩

/-- C9: after any sequence of creations from the seeded state, the id map
and the transaction array are consistent: `getTransactionById` finds every
stored transaction under its id, and the map's values are exactly the
array's transactions. -/
theorem map_array_consistent (inputs : List (TransactionData × Int)) :
    (∀ t ∈ (applyCreates seededStore inputs).transactions,
      (applyCreates seededStore inputs).getTransactionById t.id = some t) ∧
    ((applyCreates seededStore inputs).transactionMap.map
        (fun kv => kv.2)).Perm
      (applyCreates seededStore inputs).transactions := by
  have hwf := storeWF_applyCreates seededStore inputs storeWF_seeded
  refine ⟨fun t ht => getTransactionById_mem _ hwf t ht, ?_⟩
  have h := hwf.2.2.map (fun kv => kv.2)
  rw [List.map_map,
    show ((fun kv : Nat × Transaction => kv.2) ∘ fun t => (t.id, t)) = id
      from rfl, List.map_id] at h
  exact h

/-- C10: `getAllTransactions` returns a fresh copy of the internal array:
the returned reference differs from the store's own, overwriting the
returned array leaves the store's array unchanged, and a subsequent
creation does not alter the array behind a previously returned
reference. -/
theorem getAllTransactions_fresh_copy (txRef : Nat) (h : ArrayHeap)
    (v : List Transaction) (t : Transaction)
    (hr : txRef < h.cells.length) :
    (getAllTransactionsRef txRef h).1 ≠ txRef ∧
    (getAllTransactionsRef txRef h).2.read (getAllTransactionsRef txRef h).1 =
      h.read txRef ∧
    ((getAllTransactionsRef txRef h).2.write (getAllTransactionsRef txRef h).1
        v).read txRef = h.read txRef ∧
    (createTransactionRef txRef (getAllTransactionsRef txRef h).2 t).read
      (getAllTransactionsRef txRef h).1 = h.read txRef := by
  refine ⟨(Nat.ne_of_lt hr).symm, ?_, ?_, ?_⟩
  · show (h.cells ++ [h.read txRef]).getD h.cells.length [] = h.read txRef
    simp [List.getD]
  · show ((h.cells ++ [h.read txRef]).set h.cells.length v).getD txRef [] =
      h.read txRef
    rw [List.getD, List.get?_eq_getElem?,
      List.getElem?_set_ne (Nat.ne_of_lt hr).symm,
      List.getElem?_append_left hr]
    simp [ArrayHeap.read, List.getD]
  · show (((h.cells ++ [h.read txRef]).set txRef _).getD h.cells.length []) =
      h.read txRef
    rw [List.getD, List.get?_eq_getElem?,
      List.getElem?_set_ne (Nat.ne_of_lt hr),
      List.getElem?_concat_length]
    rfl

/-- C10 witness. -/
theorem getAllTransactions_fresh_copy_witness :
    (0 : Nat) < (ArrayHeap.mk [[seedTx0]]).cells.length ∧
    (getAllTransactionsRef 0 ⟨[[seedTx0]]⟩).1 ≠ 0 ∧
    (getAllTransactionsRef 0 ⟨[[seedTx0]]⟩).2.read
        (getAllTransactionsRef 0 ⟨[[seedTx0]]⟩).1 =
      (ArrayHeap.mk [[seedTx0]]).read 0 ∧
    ((getAllTransactionsRef 0 ⟨[[seedTx0]]⟩).2.write
        (getAllTransactionsRef 0 ⟨[[seedTx0]]⟩).1 []).read 0 =
      (ArrayHeap.mk [[seedTx0]]).read 0 ∧
    (createTransactionRef 0 (getAllTransactionsRef 0 ⟨[[seedTx0]]⟩).2
        seedTx1).read (getAllTransactionsRef 0 ⟨[[seedTx0]]⟩).1 =
      (ArrayHeap.mk [[seedTx0]]).read 0 :=
  ⟨by decide,
    getAllTransactions_fresh_copy 0 ⟨[[seedTx0]]⟩ [] seedTx1 (by decide)⟩
